import Mathlib

/-!
Verification of the Result Computation & PIN-Gated Access workflow of the
NOCE-DSSC school-management application.

The definitions below are a shallow embedding of the Python source:
* `saveResult` embeds `StudentResult.save` (src/core/models.py, lines 267-292):
  clamping of the four CA marks and the exam mark, summation, and the
  grade/remark mapping.
* `sortDesc`, `idxOf`, `rankOf` embed the ranking computation of the
  `student_result` view (src/core/views.py, lines 505-548): Python's
  `scores.sort(reverse=True)` followed by `scores.index(total) + 1`.
* `cleanPin`, `formatPin`, `codeMatchesAny` embed the PIN normalization
  (src/core/views.py, lines 426-440) and the case-insensitive triple match.
* `checkAccess` embeds the access-gate portion of the `student_result` view
  (src/core/views.py, lines 378-465), over a list of `Pin` rows.
* `approvePayment` and `verifyPayment` embed the status logic of the
  `approve_payment` and `verify_payment` views (src/core/views.py,
  lines 1870-1917 and 1943-1980), with the payment gateway's verdict
  abstracted as a parameter.
-/

namespace NoceDssc

/-! ## Score Aggregator: `StudentResult.save` (models.py 267-292) -/

/-- Raw component marks as passed to `StudentResult.save`. -/
structure Marks where
  ca1 : Int
  ca2 : Int
  ca3 : Int
  ca4 : Int
  exam : Int
deriving DecidableEq

/-- The derived fields written back by `StudentResult.save`. -/
structure SavedResult where
  ca1 : Int
  ca2 : Int
  ca3 : Int
  ca4 : Int
  exam : Int
  total : Int
  grade : String
  remark : String
deriving DecidableEq

/-- `min(max(x, lo), hi)` as in models.py lines 269-273. -/
def clampMark (lo hi x : Int) : Int := min (max x lo) hi

/-- Grade/remark mapping of models.py lines 279-290 (the A/C/P/F scale). -/
def gradeRemark (total : Int) : String × String :=
  if total ≥ 70 then ("A", "Excellent")
  else if total ≥ 55 then ("C", "Credit")
  else if total ≥ 40 then ("P", "Pass")
  else ("F", "Fail")

/-- `StudentResult.save`: clamp each component, recompute `total`, `grade`
and `remark` (models.py lines 267-292). -/
def saveResult (m : Marks) : SavedResult :=
  let ca1 := clampMark 0 10 m.ca1
  let ca2 := clampMark 0 10 m.ca2
  let ca3 := clampMark 0 10 m.ca3
  let ca4 := clampMark 0 10 m.ca4
  let exam := clampMark 0 60 m.exam
  let total := ca1 + ca2 + ca3 + ca4 + exam
  let gr := gradeRemark total
  ⟨ca1, ca2, ca3, ca4, exam, total, gr.1, gr.2⟩

/-- Variant A of the spec, transcribed from the spec's words
("total≥70→A/Excellent, ≥55→C/Credit, ≥40→P/Pass, else F/Fail")
for comparison against the source's `gradeRemark`. -/
def variantASpec (total : Int) : String × String :=
  if total ≥ 70 then ("A", "Excellent")
  else if total ≥ 55 then ("C", "Credit")
  else if total ≥ 40 then ("P", "Pass")
  else ("F", "Fail")

/-! ## Ranking (views.py 505-548) -/

/-- Descending insertion, used to model Python's `scores.sort(reverse=True)`.
Only the sortedness and the multiset of elements matter to the rank that the
view computes, so insertion sort is an adequate model of Timsort here. -/
def insertDesc (x : Int) : List Int → List Int
  | [] => [x]
  | y :: ys => if y ≤ x then x :: y :: ys else y :: insertDesc x ys

/-- Descending sort: `scores.sort(reverse=True)`. -/
def sortDesc : List Int → List Int
  | [] => []
  | x :: xs => insertDesc x (sortDesc xs)

/-- Index of the first occurrence, as Python's `list.index` computes it
(the source catches the not-found `ValueError` separately). -/
def idxOf (t : Int) : List Int → Nat
  | [] => 0
  | y :: ys => if t = y then 0 else idxOf t ys + 1

/-- `scores.index(res.total) + 1` after `scores.sort(reverse=True)`
(views.py line 514 for subject positions, line 543 for the overall one). -/
def rankOf (t : Int) (l : List Int) : Nat := idxOf t (sortDesc l) + 1

/-- One row of the cohort's `class_results` queryset, reduced to the fields
the ranking reads. -/
structure ResultRow where
  studentId : Nat
  subjectId : Nat
  total : Int
deriving DecidableEq

/-- The totals recorded for one subject across the cohort
(views.py lines 505-506: `subject_scores[res.subject_id].append(res.total)`). -/
def subjectScores (rs : List ResultRow) (subj : Nat) : List Int :=
  (rs.filter (fun r => r.subjectId == subj)).map (·.total)

/-- Subject position of a score within the cohort (views.py lines 508-514). -/
def subjectRankOf (rs : List ResultRow) (subj : Nat) (total : Int) : Nat :=
  rankOf total (subjectScores rs subj)

/-- Keys of a Python dict in insertion order: each key at its first
occurrence, skipping keys already seen. -/
def firstKeysAux (seen : List Nat) : List Nat → List Nat
  | [] => []
  | x :: xs =>
    if x ∈ seen then firstKeysAux seen xs
    else x :: firstKeysAux (x :: seen) xs

/-- Keys of a Python dict in insertion order: first occurrences, in order. -/
def firstKeys (l : List Nat) : List Nat := firstKeysAux [] l

/-- `student_totals[res.student_id] += res.total` accumulated over the cohort
(views.py lines 534-536); `sumFor rs sid = 0` when `sid` has no rows, matching
`student_totals.get(user.id, 0)` at line 540. -/
def sumFor (rs : List ResultRow) (sid : Nat) : Int :=
  ((rs.filter (fun r => r.studentId == sid)).map (·.total)).sum

/-- The dict's value list, in key insertion order (views.py line 539 sorts it). -/
def studentTotals (rs : List ResultRow) : List Int :=
  (firstKeys (rs.map (·.studentId))).map (sumFor rs)

/-- Overall class position: `sorted_totals.index(my_total) + 1`
(views.py lines 539-543). -/
def overallRankOf (rs : List ResultRow) (uid : Nat) : Nat :=
  rankOf (sumFor rs uid) (studentTotals rs)

/-! ## PIN normalization (views.py 426-434, test_normalization.py 1-4) -/

/-- `re.sub(r'[^a-zA-Z0-9]', '', pin).upper()` at the character-list level. -/
def cleanList (l : List Char) : List Char :=
  (l.filter Char.isAlphanum).map Char.toUpper

/-- `clean_code = re.sub(r'[^a-zA-Z0-9]', '', manual_pin_code).upper()`
(views.py line 428; also `clean_pin` in test_normalization.py). -/
def cleanPin (s : String) : String := String.mk (cleanList s.data)

/-- Re-insertion of the canonical `XXXX-XXXX-XXXX` grouping when the cleaned
code has 12 characters (views.py lines 431-434). -/
def formatPin (clean : String) : String :=
  if clean.length = 12 then
    clean.take 4 ++ "-" ++ (clean.drop 4).take 4 ++ "-" ++ clean.drop 8
  else clean

/-- Uppercasing of a whole string, written over the character list so that
it evaluates by kernel reduction. -/
def strUpper (s : String) : String := String.mk (s.data.map Char.toUpper)

/-- Django's `iexact`: case-insensitive string equality. -/
def iexact (a b : String) : Bool := strUpper a == strUpper b

/-! ## Access gate state (models.py 324-343, views.py 378-465) -/

/-- `ROLE_CHOICES` of models.py lines 8-13 (teacher unused by the gate). -/
inductive Role where
  | student
  | teacher
  | staff
  | admin
deriving DecidableEq

/-- `Pin.STATUS_CHOICES` of models.py lines 326-329. -/
inductive PinStatus where
  | active
  | used
deriving DecidableEq

/-- The fields of a `Term` row the gate reads: primary key and display name. -/
structure TermRef where
  id : Nat
  name : String
deriving DecidableEq

/-- The fields of `CustomUser` the gate reads. -/
structure User where
  id : Nat
  role : Role
deriving DecidableEq

/-- A `Pin` row (models.py 324-343).  `student` is the bound student's id;
the view's binding branch (`if not valid_pin.student`) treats an absent
student as the unbound state, modelled by `none`. -/
structure Pin where
  code : String
  student : Option Nat
  term : TermRef
  sessionId : Nat
  status : PinStatus
  usageCount : Nat
deriving DecidableEq

/-- The `Q(code__iexact=manual) | Q(code__iexact=formatted) | Q(code__iexact=clean)`
disjunction of views.py lines 437-440 and 458-460. -/
def codeMatchesAny (manual : String) (p : Pin) : Bool :=
  iexact p.code manual || iexact p.code (formatPin (cleanPin manual)) ||
    iexact p.code (cleanPin manual)

/-- `Pin.objects.filter(student=user, term=term)` membership test
(views.py line 420). -/
def ownedPinPred (u : User) (t : TermRef) (p : Pin) : Bool :=
  decide (p.student = some u.id ∧ p.term.id = t.id)

/-- The code-match filter restricted to the selected term
(views.py lines 437-440). -/
def termPinPred (manual : String) (t : TermRef) (p : Pin) : Bool :=
  codeMatchesAny manual p && decide (p.term.id = t.id)

/-- Replace the first row satisfying `pred` by its `f`-update, leaving every
other row untouched: the effect of `valid_pin.save()` on the row the query
returned (views.py lines 450-453). -/
def replaceFirst (pred : Pin → Bool) (f : Pin → Pin) : List Pin → List Pin
  | [] => []
  | p :: ps => if pred p then f p :: ps else p :: replaceFirst pred f ps

/-- The access decision of the `student_result` view, with the reason each
denial path reports. -/
inductive AccessOutcome where
  /-- Access granted; results are rendered. -/
  | granted
  /-- "Access denied. Student only." redirect at views.py lines 379-381. -/
  | deniedStudentOnly
  /-- "This PIN has already been used by another student." (line 445). -/
  | deniedUsedByOther
  /-- "This PIN is no longer active." (line 447). -/
  | deniedInactive
  /-- "Invalid Term: This PIN is for '...'" naming the pin's actual term
  (line 463). -/
  | deniedWrongTerm (actualTermName : String)
  /-- "Invalid PIN code. Please check your digits." (line 465). -/
  | deniedInvalidCode
  /-- No owned pin and no code supplied: "Access Restricted" (line 567). -/
  | deniedNoCode
deriving DecidableEq

/-- The access-gate portion of the `student_result` view (views.py 378-465),
as a function of the requesting user, the selected term, the supplied code
(`request.GET.get('pin_code', '').strip()`; `""` when absent) and the stored
`Pin` rows.  Returns the decision and the rows after the request. -/
def checkAccess (u : User) (t : TermRef) (manual : String) (pins : List Pin) :
    AccessOutcome × List Pin :=
  if u.role ≠ Role.student then (AccessOutcome.deniedStudentOnly, pins)
  else if u.role = Role.admin ∨ u.role = Role.staff then
    (AccessOutcome.granted, pins)
  else
    match pins.find? (ownedPinPred u t) with
    | some _ => (AccessOutcome.granted, pins)
    | none =>
      if manual = "" then (AccessOutcome.deniedNoCode, pins)
      else
        match pins.find? (termPinPred manual t) with
        | some vp =>
          if vp.student ≠ none ∧ vp.student ≠ some u.id then
            (AccessOutcome.deniedUsedByOther, pins)
          else if vp.status ≠ PinStatus.active ∧ vp.student = none then
            (AccessOutcome.deniedInactive, pins)
          else if vp.student = none then
            (AccessOutcome.granted,
              replaceFirst (termPinPred manual t)
                (fun p => { p with student := some u.id,
                                   status := PinStatus.active }) pins)
          else (AccessOutcome.granted, pins)
        | none =>
          match pins.find? (codeMatchesAny manual) with
          | some wtp => (AccessOutcome.deniedWrongTerm wtp.term.name, pins)
          | none => (AccessOutcome.deniedInvalidCode, pins)

/-! ## Payment approval (views.py 1870-1917, 1943-1980) -/

/-- `Payment.STATUS_CHOICES` of models.py lines 355-359. -/
inductive PayStatus where
  | pending
  | approved
  | declined
deriving DecidableEq

/-- The fields of a `Payment` row the approval logic reads and writes. -/
structure Payment where
  studentId : Nat
  term : TermRef
  sessionId : Nat
  status : PayStatus
  adminNote : String
deriving DecidableEq

/-- `Pin.objects.create(student=.., term=.., academic_session=.., status='active')`
(views.py lines 1896-1901 and 1963-1968); the 12-digit code itself is drawn
at random inside `Pin.save`, so it is taken as the parameter `newCode`. -/
def mintPin (newCode : String) (p : Payment) : Pin :=
  ⟨newCode, some p.studentId, p.term, p.sessionId, PinStatus.active, 0⟩

/-- The `approve_payment` admin action (views.py 1943-1980): sets the status
per the posted action and, on approval, mints one pre-bound pin.  Returns the
updated payment and the list of pins created. -/
def approvePayment (adminName : String) (action : String) (newCode : String)
    (p : Payment) : Payment × List Pin :=
  if action = "approve" then
    ({ p with status := PayStatus.approved,
              adminNote := "Approved by " ++ adminName },
      [mintPin newCode p])
  else if action = "decline" then
    ({ p with status := PayStatus.declined,
              adminNote := "Declined by " ++ adminName }, [])
  else (p, [])

/-- The `verify_payment` callback (views.py 1870-1917), with the gateway's
verdict abstracted: `none` models an unreachable/non-200 gateway (payment
untouched), `some true` a successful verification, `some false` a failed one. -/
def verifyPayment (gateway : Option Bool) (newCode : String) (p : Payment) :
    Payment × List Pin :=
  if p.status = PayStatus.approved then (p, [])
  else
    match gateway with
    | some true => ({ p with status := PayStatus.approved }, [mintPin newCode p])
    | some false => ({ p with status := PayStatus.declined }, [])
    | none => (p, [])

/-! ## Concrete rows used to exercise the model -/

/-- A cohort with one subject and totals 90, 90, 75 (spec §8's ranking row). -/
def demoRows : List ResultRow := [⟨1, 1, 90⟩, ⟨2, 1, 90⟩, ⟨3, 1, 75⟩]

/-- Term "First" of the demo session. -/
def demoTerm1 : TermRef := ⟨1, "First"⟩

/-- Term "Second" of the demo session. -/
def demoTerm2 : TermRef := ⟨2, "Second"⟩

/-- An unbound active pin for term "First". -/
def demoPinUnbound : Pin := ⟨"1234-5678-9012", none, demoTerm1, 1, PinStatus.active, 0⟩

/-- The same pin after student 1 redeemed it. -/
def demoPinBoundTo1 : Pin := ⟨"1234-5678-9012", some 1, demoTerm1, 1, PinStatus.active, 0⟩

/-- A pin owned by student 1 whose status an administrator set to `used`. -/
def demoPinUsedBoundTo1 : Pin := ⟨"1234-5678-9012", some 1, demoTerm1, 1, PinStatus.used, 3⟩

/-- Student 1. -/
def studentA : User := ⟨1, Role.student⟩

/-- Student 2. -/
def studentB : User := ⟨2, Role.student⟩

/-- A payment that was declined. -/
def demoDeclinedPayment : Payment := ⟨1, demoTerm1, 1, PayStatus.declined, ""⟩

/-- A payment that was already approved. -/
def demoApprovedPayment : Payment := ⟨1, demoTerm1, 1, PayStatus.approved, ""⟩

/-! ## Lemmas about the ranking computation -/

theorem insertDesc_perm (x : Int) (l : List Int) :
    List.Perm (insertDesc x l) (x :: l) := by
  induction l with
  | nil => simp [insertDesc]
  | cons y ys ih =>
    by_cases h : y ≤ x
    · simp [insertDesc, h]
    · simp only [insertDesc, if_neg h]
      exact (List.Perm.cons y ih).trans (List.Perm.swap x y ys)

theorem sortDesc_perm (l : List Int) : List.Perm (sortDesc l) l := by
  induction l with
  | nil => exact List.Perm.refl _
  | cons x xs ih => exact (insertDesc_perm x (sortDesc xs)).trans (ih.cons x)

theorem pairwise_insertDesc {x : Int} {l : List Int}
    (h : l.Pairwise (· ≥ ·)) : (insertDesc x l).Pairwise (· ≥ ·) := by
  induction l with
  | nil => simp [insertDesc]
  | cons y ys ih =>
    rcases List.pairwise_cons.mp h with ⟨hy, hys⟩
    by_cases hxy : y ≤ x
    · simp only [insertDesc, if_pos hxy]
      refine List.pairwise_cons.mpr ⟨?_, h⟩
      intro z hz
      rcases List.mem_cons.mp hz with rfl | hz
      · exact hxy
      · exact le_trans (hy z hz) hxy
    · simp only [insertDesc, if_neg hxy]
      refine List.pairwise_cons.mpr ⟨?_, ih hys⟩
      intro z hz
      have hz' : z = x ∨ z ∈ ys := by
        simpa using (insertDesc_perm x ys).mem_iff.mp hz
      rcases hz' with rfl | hz'
      · exact le_of_lt (lt_of_not_le hxy)
      · exact hy z hz'

theorem sortDesc_sorted (l : List Int) : (sortDesc l).Pairwise (· ≥ ·) := by
  induction l with
  | nil => simp [sortDesc]
  | cons x xs ih => exact pairwise_insertDesc ih

theorem idxOf_sorted {l : List Int} (hl : l.Pairwise (· ≥ ·)) {t : Int}
    (ht : t ∈ l) : idxOf t l = l.countP (fun x => decide (t < x)) := by
  induction l with
  | nil => cases ht
  | cons y ys ih =>
    rcases List.pairwise_cons.mp hl with ⟨hy, hys⟩
    rw [List.countP_cons]
    by_cases hty : t = y
    · subst hty
      have h2 : ys.countP (fun x => decide (t < x)) = 0 := by
        rw [List.countP_eq_zero]
        intro a ha
        simpa using not_lt.mpr (hy a ha)
      simp [idxOf, h2]
    · have ht' : t ∈ ys := by
        rcases List.mem_cons.mp ht with h | h
        · exact absurd h hty
        · exact h
      have hlt : t < y := lt_of_le_of_ne (hy t ht') hty
      simp [idxOf, hty, ih hys ht', hlt]

theorem rankOf_eq_countP_add_one {t : Int} {l : List Int} (ht : t ∈ l) :
    rankOf t l = l.countP (fun x => decide (t < x)) + 1 := by
  unfold rankOf
  have h1 : t ∈ sortDesc l := (sortDesc_perm l).mem_iff.mpr ht
  rw [idxOf_sorted (sortDesc_sorted l) h1,
    List.Perm.countP_eq (fun x => decide (t < x)) (sortDesc_perm l)]

/-! ## Lemmas about the pin-binding update -/

theorem replaceFirst_length (pred : Pin → Bool) (f : Pin → Pin)
    (pins : List Pin) : (replaceFirst pred f pins).length = pins.length := by
  induction pins with
  | nil => rfl
  | cons x xs ih =>
    by_cases hx : pred x
    · simp [replaceFirst, hx]
    · simp [replaceFirst, hx, ih]

theorem replaceFirst_student (pred : Pin → Bool) (f : Pin → Pin)
    {pins : List Pin} {vp : Pin} (hf : pins.find? pred = some vp)
    (hnone : vp.student = none) :
    ∀ (i : Nat) (p : Pin) (s : Nat),
      pins.get? i = some p → p.student = some s →
      ∃ q, (replaceFirst pred f pins).get? i = some q ∧ q.student = some s := by
  induction pins with
  | nil => intro i p s hp; simp at hp
  | cons x xs ih =>
    by_cases hx : pred x
    · rw [List.find?_cons_of_pos _ hx] at hf
      injection hf with e
      subst e
      intro i p s hp hs
      have hrw : replaceFirst pred f (x :: xs) = f x :: xs := by
        simp [replaceFirst, hx]
      match i with
      | 0 =>
        rw [List.get?_cons_zero] at hp
        injection hp with e'
        subst e'
        rw [hnone] at hs
        cases hs
      | Nat.succ j =>
        rw [List.get?_cons_succ] at hp
        exact ⟨p, by rw [hrw, List.get?_cons_succ]; exact hp, hs⟩
    · rw [List.find?_cons_of_neg _ hx] at hf
      intro i p s hp hs
      have hrw : replaceFirst pred f (x :: xs) = x :: replaceFirst pred f xs := by
        simp [replaceFirst, hx]
      match i with
      | 0 =>
        rw [List.get?_cons_zero] at hp
        exact ⟨p, by rw [hrw, List.get?_cons_zero]; exact hp, hs⟩
      | Nat.succ j =>
        rw [List.get?_cons_succ] at hp
        obtain ⟨q, hq, hqs⟩ := ih hf j p s hp hs
        exact ⟨q, by rw [hrw, List.get?_cons_succ]; exact hq, hqs⟩

/-! ## Case analysis of the access gate's state change -/

theorem checkAccess_state (u : User) (t : TermRef) (manual : String)
    (pins : List Pin) :
    (checkAccess u t manual pins).2 = pins ∨
    ((checkAccess u t manual pins).1 = AccessOutcome.granted ∧
      ∃ vp, pins.find? (termPinPred manual t) = some vp ∧ vp.student = none ∧
        (checkAccess u t manual pins).2
          = replaceFirst (termPinPred manual t)
              (fun p => { p with student := some u.id,
                                 status := PinStatus.active }) pins) := by
  unfold checkAccess
  by_cases hrole : u.role ≠ Role.student
  · simp [hrole]
  · simp only [if_neg hrole]
    by_cases hpriv : u.role = Role.admin ∨ u.role = Role.staff
    · simp [hpriv]
    · simp only [if_neg hpriv]
      cases hown : pins.find? (ownedPinPred u t) with
      | some p => simp
      | none =>
        by_cases hm : manual = ""
        · simp [hm]
        · simp only [if_neg hm]
          cases hvp : pins.find? (termPinPred manual t) with
          | some vp =>
            by_cases hother : vp.student ≠ none ∧ vp.student ≠ some u.id
            · simp [hother]
            · simp only [if_neg hother]
              by_cases hinact : vp.status ≠ PinStatus.active ∧ vp.student = none
              · simp [hinact]
              · simp only [if_neg hinact]
                by_cases hnone : vp.student = none
                · rw [if_pos hnone]
                  exact Or.inr ⟨rfl, vp, rfl, hnone, rfl⟩
                · simp [hnone]
          | none =>
            cases hw : pins.find? (codeMatchesAny manual) with
            | some wtp => simp
            | none => simp

/-! ## Claims -/

/-- C1, counterexample: on the cohort of totals [90, 90, 75] the ranking the
view computes (`scores.index(total) + 1` after a descending sort) assigns
rank 1 to BOTH students scoring 90 — subject-wise and overall — so the
claimed non-collapsed assignment [1, 2, 3] is not what the code produces. -/
theorem C1_counterexample :
    (([90, 90, 75] : List Int).map (fun t => rankOf t [90, 90, 75]) = [1, 1, 3]) ∧
    (demoRows.map (fun r => subjectRankOf demoRows 1 r.total) = [1, 1, 3]) ∧
    (demoRows.map (fun r => overallRankOf demoRows r.studentId) = [1, 1, 3]) ∧
    ¬ (([90, 90, 75] : List Int).map (fun t => rankOf t [90, 90, 75]) = [1, 2, 3]) := by
  decide

/-- C1, amended: ranks are 1-based and ties ARE collapsed: every score's rank
is one plus the number of strictly greater scores in the cohort (standard
competition ranking), so equal scores share a rank; on totals [90, 90, 75]
both 90s get rank 1 and 75 gets rank 3, and the overall ranking of students
by aggregate total follows the same collapsed-tie convention. -/
theorem C1_rank_ties_collapsed :
    (∀ (l : List Int) (t : Int), t ∈ l →
        rankOf t l = l.countP (fun x => decide (t < x)) + 1) ∧
    (∀ (rs : List ResultRow) (uid : Nat),
        sumFor rs uid ∈ studentTotals rs →
        overallRankOf rs uid
          = (studentTotals rs).countP (fun x => decide (sumFor rs uid < x)) + 1) ∧
    (demoRows.map (fun r => subjectRankOf demoRows 1 r.total) = [1, 1, 3]) ∧
    (demoRows.map (fun r => overallRankOf demoRows r.studentId) = [1, 1, 3]) := by
  refine ⟨fun l t ht => rankOf_eq_countP_add_one ht,
    fun rs uid h => rankOf_eq_countP_add_one h, by decide, by decide⟩

/-- Witness for C1: instantiating the collapsed-tie rank formula on the
cohort [90, 90, 75] at the tied score 90. -/
theorem C1_rank_ties_collapsed_witness :
    (90 : Int) ∈ ([90, 90, 75] : List Int) ∧
    rankOf 90 [90, 90, 75]
      = ([90, 90, 75] : List Int).countP (fun x => decide ((90 : Int) < x)) + 1 :=
  ⟨by decide, C1_rank_ties_collapsed.1 [90, 90, 75] 90 (by decide)⟩

/-- C2: the grade and remark stored by `StudentResult.save` are exactly the
Variant A function of the stored total (closed thresholds 70/55/40), and in
particular a total of 70 yields grade A / remark Excellent while a total of
69 yields grade C / remark Credit. -/
theorem C2_grade_variantA :
    (∀ m : Marks,
        ((saveResult m).grade, (saveResult m).remark)
          = variantASpec (saveResult m).total) ∧
    (saveResult ⟨10, 10, 10, 10, 30⟩).total = 70 ∧
    (saveResult ⟨10, 10, 10, 10, 30⟩).grade = "A" ∧
    (saveResult ⟨10, 10, 10, 10, 30⟩).remark = "Excellent" ∧
    (saveResult ⟨10, 10, 10, 9, 30⟩).total = 69 ∧
    (saveResult ⟨10, 10, 10, 9, 30⟩).grade = "C" ∧
    (saveResult ⟨10, 10, 10, 9, 30⟩).remark = "Credit" :=
  ⟨fun _ => rfl, by decide, by decide, by decide, by decide, by decide, by decide⟩

/-- C3: `StudentResult.save` clamps every CA mark into [0, 10] and the exam
mark into [0, 60] (silently: ca=15 is stored as 10, ca=-3 as 0, exam=75 as
60), and the stored total is the exact sum of the clamped components, hence
always lies in [0, 100]. -/
theorem C3_clamping :
    (∀ m : Marks,
        (0 ≤ (saveResult m).ca1 ∧ (saveResult m).ca1 ≤ 10) ∧
        (0 ≤ (saveResult m).ca2 ∧ (saveResult m).ca2 ≤ 10) ∧
        (0 ≤ (saveResult m).ca3 ∧ (saveResult m).ca3 ≤ 10) ∧
        (0 ≤ (saveResult m).ca4 ∧ (saveResult m).ca4 ≤ 10) ∧
        (0 ≤ (saveResult m).exam ∧ (saveResult m).exam ≤ 60) ∧
        (saveResult m).total
          = (saveResult m).ca1 + (saveResult m).ca2 + (saveResult m).ca3
            + (saveResult m).ca4 + (saveResult m).exam ∧
        0 ≤ (saveResult m).total ∧ (saveResult m).total ≤ 100) ∧
    (saveResult ⟨15, -3, 0, 0, 75⟩).ca1 = 10 ∧
    (saveResult ⟨15, -3, 0, 0, 75⟩).ca2 = 0 ∧
    (saveResult ⟨15, -3, 0, 0, 75⟩).exam = 60 ∧
    (saveResult ⟨15, -3, 0, 0, 75⟩).total = 70 := by
  refine ⟨fun m => ?_, by decide, by decide, by decide, by decide⟩
  have h1 : 0 ≤ clampMark 0 10 m.ca1 ∧ clampMark 0 10 m.ca1 ≤ 10 :=
    ⟨le_min (le_max_right _ _) (by norm_num), min_le_right _ _⟩
  have h2 : 0 ≤ clampMark 0 10 m.ca2 ∧ clampMark 0 10 m.ca2 ≤ 10 :=
    ⟨le_min (le_max_right _ _) (by norm_num), min_le_right _ _⟩
  have h3 : 0 ≤ clampMark 0 10 m.ca3 ∧ clampMark 0 10 m.ca3 ≤ 10 :=
    ⟨le_min (le_max_right _ _) (by norm_num), min_le_right _ _⟩
  have h4 : 0 ≤ clampMark 0 10 m.ca4 ∧ clampMark 0 10 m.ca4 ≤ 10 :=
    ⟨le_min (le_max_right _ _) (by norm_num), min_le_right _ _⟩
  have h5 : 0 ≤ clampMark 0 60 m.exam ∧ clampMark 0 60 m.exam ≤ 60 :=
    ⟨le_min (le_max_right _ _) (by norm_num), min_le_right _ _⟩
  have hsum : (saveResult m).total
      = clampMark 0 10 m.ca1 + clampMark 0 10 m.ca2 + clampMark 0 10 m.ca3
        + clampMark 0 10 m.ca4 + clampMark 0 60 m.exam := rfl
  exact ⟨h1, h2, h3, h4, h5, rfl, by omega, by omega⟩

/-- C4: no redemption request ever rebinds a pin that already has a student:
`checkAccess` preserves the number of stored pins and, at every index, a pin
bound to student s before the request is still bound to s afterwards — the
binding write happens only on a pin whose student field is empty. -/
theorem C4_binding_never_reassigned :
    ∀ (u : User) (t : TermRef) (manual : String) (pins : List Pin),
      (checkAccess u t manual pins).2.length = pins.length ∧
      ∀ (i : Nat) (p : Pin) (s : Nat),
        pins.get? i = some p → p.student = some s →
        ∃ q, (checkAccess u t manual pins).2.get? i = some q ∧
          q.student = some s := by
  intro u t manual pins
  rcases checkAccess_state u t manual pins with h | ⟨-, vp, hvp, hnone, h⟩
  · rw [h]
    exact ⟨rfl, fun i p s hp hs => ⟨p, hp, hs⟩⟩
  · rw [h]
    exact ⟨replaceFirst_length _ _ _,
      fun i p s hp hs => replaceFirst_student _ _ hvp hnone i p s hp hs⟩

/-- Witness for C4: student 2 supplies a code already bound to student 1;
after the request the stored pin is still bound to student 1. -/
theorem C4_binding_never_reassigned_witness :
    demoPinBoundTo1.student = some 1 ∧
    ∃ q, (checkAccess studentB demoTerm1 "1234-5678-9012"
          [demoPinBoundTo1]).2.get? 0 = some q ∧ q.student = some 1 :=
  ⟨rfl, (C4_binding_never_reassigned studentB demoTerm1 "1234-5678-9012"
      [demoPinBoundTo1]).2 0 demoPinBoundTo1 1 rfl rfl⟩

/-- C5: a denied request leaves the stored pins exactly as they were; and in
the concrete bind-then-reattempt scenario, binding the unbound demo code to
student 1 and then letting student 2 supply the same code for the same term
yields the used-by-other denial with the pin list unchanged. -/
theorem C5_denial_no_mutation :
    (∀ (u : User) (t : TermRef) (manual : String) (pins : List Pin),
        (checkAccess u t manual pins).1 ≠ AccessOutcome.granted →
        (checkAccess u t manual pins).2 = pins) ∧
    (checkAccess studentA demoTerm1 "1234-5678-9012" [demoPinUnbound]
        = (AccessOutcome.granted, [demoPinBoundTo1]) ∧
      checkAccess studentB demoTerm1 "1234-5678-9012" [demoPinBoundTo1]
        = (AccessOutcome.deniedUsedByOther, [demoPinBoundTo1])) := by
  constructor
  · intro u t manual pins hden
    rcases checkAccess_state u t manual pins with h | ⟨hg, -, -, -, -⟩
    · exact h
    · exact absurd hg hden
  · constructor
    · decide
    · decide

/-- Witness for C5: an invalid code is denied and the (empty) pin store is
untouched. -/
theorem C5_denial_no_mutation_witness :
    (checkAccess studentA demoTerm1 "9999-9999-9999" []).1
        ≠ AccessOutcome.granted ∧
    (checkAccess studentA demoTerm1 "9999-9999-9999" []).2 = [] :=
  ⟨by decide, C5_denial_no_mutation.1 studentA demoTerm1 "9999-9999-9999" []
    (by decide)⟩

/-- C6, counterexample: `approve_payment` never checks the current status, so
the approve action turns an already-declined payment into an approved one —
the declined state is reversed, contrary to the claimed
pending-to-approved/declined-only transition discipline. -/
theorem C6_counterexample :
    demoDeclinedPayment.status = PayStatus.declined ∧
    (approvePayment "admin" "approve" "1111-2222-3333"
        demoDeclinedPayment).1.status = PayStatus.approved := by
  constructor
  · decide
  · decide

/-- C6, amended: the approve action sets status approved and mints exactly
one redemption code pre-bound to the paying student for the payment's term
and session, and the decline action sets status declined, in each case
regardless of the payment's prior status (so declined-to-approved reversals
are possible); `verify_payment` leaves an already-approved payment untouched
and mints nothing for it, while for any not-yet-approved payment a gateway
success sets approved and mints one pre-bound code and a gateway failure
sets declined and mints nothing. -/
theorem C6_payment_transitions :
    (∀ (a code : String) (p : Payment),
        (approvePayment a "approve" code p).1.status = PayStatus.approved ∧
        (approvePayment a "approve" code p).2 = [mintPin code p] ∧
        (mintPin code p).student = some p.studentId ∧
        (mintPin code p).term = p.term ∧
        (mintPin code p).sessionId = p.sessionId ∧
        (mintPin code p).status = PinStatus.active) ∧
    (∀ (a code : String) (p : Payment),
        (approvePayment a "decline" code p).1.status = PayStatus.declined ∧
        (approvePayment a "decline" code p).2 = []) ∧
    (∀ (g : Option Bool) (code : String) (p : Payment),
        p.status = PayStatus.approved → verifyPayment g code p = (p, [])) ∧
    (∀ (code : String) (p : Payment), p.status ≠ PayStatus.approved →
        verifyPayment (some true) code p
          = ({ p with status := PayStatus.approved }, [mintPin code p])) ∧
    (∀ (code : String) (p : Payment), p.status ≠ PayStatus.approved →
        verifyPayment (some false) code p
          = ({ p with status := PayStatus.declined }, [])) := by
  refine ⟨fun a code p => ?_, fun a code p => ?_, fun g code p h => ?_,
    fun code p h => ?_, fun code p h => ?_⟩
  · exact ⟨rfl, rfl, rfl, rfl, rfl, rfl⟩
  · constructor
    · simp [approvePayment]
    · simp [approvePayment]
  · simp [verifyPayment, h]
  · simp [verifyPayment, h]
  · simp [verifyPayment, h]

/-- Witness for C6: an already-approved payment is left untouched by a
successful gateway callback, and a declined one is re-approved by it. -/
theorem C6_payment_transitions_witness :
    demoApprovedPayment.status = PayStatus.approved ∧
    verifyPayment (some true) "2222-3333-4444" demoApprovedPayment
      = (demoApprovedPayment, []) :=
  ⟨rfl, C6_payment_transitions.2.2.1 (some true) "2222-3333-4444"
    demoApprovedPayment rfl⟩

/-- C7: the `student_result` view rejects every non-student role at entry
("Access denied. Student only."), so an admin or staff user is always turned
away with the pin store untouched — the ADMIN/STAFF BYPASS branch further
down the view can never run, since it requires a role that the entry guard
has already excluded. -/
theorem C7_admin_staff_turned_away :
    ∀ (uid : Nat) (t : TermRef) (manual : String) (pins : List Pin),
      checkAccess ⟨uid, Role.admin⟩ t manual pins
        = (AccessOutcome.deniedStudentOnly, pins) ∧
      checkAccess ⟨uid, Role.staff⟩ t manual pins
        = (AccessOutcome.deniedStudentOnly, pins) ∧
      checkAccess ⟨uid, Role.admin⟩ demoTerm1 "1234-5678-9012"
          [demoPinUnbound]
        = (AccessOutcome.deniedStudentOnly, [demoPinUnbound]) :=
  fun _ _ _ _ => ⟨rfl, rfl, rfl⟩

/-- C8: when the supplied code matches no stored pin for the selected term
but does match some pin (necessarily of a different term), the student is
denied with a wrong-term reason naming that pin's actual term name; when the
code matches nothing at all the denial reason is invalid-code instead. -/
theorem C8_wrong_term_naming :
    ∀ (u : User) (t : TermRef) (manual : String) (pins : List Pin),
      u.role = Role.student →
      pins.find? (ownedPinPred u t) = none →
      manual ≠ "" →
      pins.find? (termPinPred manual t) = none →
      (∀ wtp : Pin, pins.find? (codeMatchesAny manual) = some wtp →
          checkAccess u t manual pins
            = (AccessOutcome.deniedWrongTerm wtp.term.name, pins) ∧
          wtp.term.id ≠ t.id) ∧
      (pins.find? (codeMatchesAny manual) = none →
          checkAccess u t manual pins
            = (AccessOutcome.deniedInvalidCode, pins)) := by
  intro u t manual pins hrole hown hm hterm
  have hred : ∀ (o : AccessOutcome × List Pin),
      (match pins.find? (codeMatchesAny manual) with
        | some wtp => (AccessOutcome.deniedWrongTerm wtp.term.name, pins)
        | none => (AccessOutcome.deniedInvalidCode, pins)) = o →
      checkAccess u t manual pins = o := by
    intro o ho
    unfold checkAccess
    rw [if_neg (by rw [hrole]; exact fun hc => hc rfl),
      if_neg (by rw [hrole]; rintro (h | h) <;> exact Role.noConfusion h),
      hown, if_neg hm, hterm]
    exact ho
  constructor
  · intro wtp hw
    constructor
    · exact hred _ (by rw [hw])
    · intro hid
      have hmem := List.mem_of_find?_eq_some hw
      have hmatch := List.find?_some hw
      have hnot := List.find?_eq_none.mp hterm wtp hmem
      exact hnot (by
        unfold termPinPred
        rw [hmatch, hid]
        simp)
  · intro hw
    exact hred _ (by rw [hw])

/-- Witness for C8: student 2 supplies the code of a pin issued for term
"First" while viewing term "Second" and is denied with a message naming
"First"; the terms indeed differ. -/
theorem C8_wrong_term_naming_witness :
    checkAccess studentB demoTerm2 "1234-5678-9012" [demoPinBoundTo1]
      = (AccessOutcome.deniedWrongTerm "First", [demoPinBoundTo1]) ∧
    demoPinBoundTo1.term.id ≠ demoTerm2.id :=
  (C8_wrong_term_naming studentB demoTerm2 "1234-5678-9012" [demoPinBoundTo1]
    rfl (by decide) (by decide) (by decide)).1 demoPinBoundTo1 (by decide)

/-- C9: PIN normalization strips every non-alphanumeric character (a
separator inserted anywhere is ignored) and uppercases, so
"1234-5678-9012", "1234 5678 9012" and "123456789012" all clean to the same
canonical 12-character code, re-group to the same 4-4-4 form, and all three
match the stored pin whose code is "1234-5678-9012". -/
theorem C9_normalization :
    (∀ (sep : Char) (l1 l2 : List Char), sep.isAlphanum = false →
        cleanList (l1 ++ sep :: l2) = cleanList (l1 ++ l2)) ∧
    cleanPin "1234-5678-9012" = "123456789012" ∧
    cleanPin "1234 5678 9012" = "123456789012" ∧
    cleanPin "123456789012" = "123456789012" ∧
    (cleanPin "1234-5678-9012").length = 12 ∧
    formatPin (cleanPin "1234-5678-9012") = "1234-5678-9012" ∧
    codeMatchesAny "1234-5678-9012" demoPinUnbound = true ∧
    codeMatchesAny "1234 5678 9012" demoPinUnbound = true ∧
    codeMatchesAny "123456789012" demoPinUnbound = true := by
  refine ⟨fun sep l1 l2 h => ?_, by decide, by decide, by decide, by decide,
    by decide, by decide, by decide, by decide⟩
  simp [cleanList, List.filter_append, List.filter_cons, h]

/-- Witness for C9: a dash inserted in the middle of a digit list is ignored
by the cleaning step. -/
theorem C9_normalization_witness :
    Char.isAlphanum '-' = false ∧
    cleanList (['1', '2'] ++ '-' :: ['3']) = cleanList (['1', '2'] ++ ['3']) :=
  ⟨by decide, C9_normalization.1 '-' ['1', '2'] ['3'] (by decide)⟩

/-- C10: a student who owns any pin for the selected term is granted access
with the store unchanged, whatever the pin's status or usage count and
whatever code (if any) accompanies the request — in particular a pin whose
status is used still admits its owner. -/
theorem C10_owned_pin_any_status :
    ∀ (u : User) (t : TermRef) (manual : String) (pins : List Pin),
      u.role = Role.student →
      (∃ p ∈ pins, p.student = some u.id ∧ p.term.id = t.id) →
      checkAccess u t manual pins = (AccessOutcome.granted, pins) := by
  intro u t manual pins hrole hex
  have hsome : (pins.find? (ownedPinPred u t)).isSome := by
    rw [List.find?_isSome]
    obtain ⟨p, hp, h1, h2⟩ := hex
    exact ⟨p, hp, by simp [ownedPinPred, h1, h2]⟩
  obtain ⟨vp, hvp⟩ := Option.isSome_iff_exists.mp hsome
  unfold checkAccess
  rw [if_neg (by rw [hrole]; exact fun hc => hc rfl),
    if_neg (by rw [hrole]; rintro (h | h) <;> exact Role.noConfusion h), hvp]

/-- Witness for C10: student 1 owns a used pin for term "First" and is still
granted access when re-supplying its code. -/
theorem C10_owned_pin_any_status_witness :
    demoPinUsedBoundTo1.status = PinStatus.used ∧
    checkAccess studentA demoTerm1 "1234-5678-9012" [demoPinUsedBoundTo1]
      = (AccessOutcome.granted, [demoPinUsedBoundTo1]) :=
  ⟨rfl, C10_owned_pin_any_status studentA demoTerm1 "1234-5678-9012"
    [demoPinUsedBoundTo1] rfl (by decide)⟩

end NoceDssc
